import Mathlib

/-! # Remote config store and integration controller

A shallow embedding of `pkg/metrics/instance/configstore/remote.go` (the
`Remote` store: `NewRemote`, `ApplyConfig`, `setClient`, the mode selection
and the generic callback of `watchKV`, `List`, `Get`, `Put`, `Delete`, `All`,
`all`, `allOther`, `Close`) together with the properties stated about it,
followed by the integration controller of `pkg/integrations/v2`.

Conventions of the embedding.

* Locks (`kvMut`, `configsMut`) serialise the operations; every operation is
  modelled as one atomic state transformer, which is what the lock gives.
* The generic `kv.Client` is a collaborator behind an interface.  It is a
  record of response functions over a `World`: the stored key/value contents
  plus the log of calls issued on clients so far.
* Functions of the repository that the store calls but that live in other
  files (`instance.MarshalConfig`, `instance.UnmarshalConfig`, `checkUnique`,
  `RemoteClient.AllConsul`) and the two client constructors are parameters,
  collected in `Env` and `ConsulClient`.
* A Go call can return, block forever, or stop with a run-time failure; the
  three are kept apart in `Outcome`.
* Channel operations are modelled where they decide whether a call returns:
  the channel made by `allOther` and the bundle channel of the watch.  The
  reload channel has capacity one and is drained by the dispatch loop for as
  long as the store is not closed, so a send on it completes; the store
  counts these sends.
* The metrics registry `r.reg` is the list of collector names registered
  through it; what `kv.NewClient` registers on it is a parameter.  The logger
  is not modelled.
-/

namespace Configstore

/-! ## Data model -/

deriving instance DecidableEq for Except

abbrev Key := String

/-- Raw document as held by the KV store (the codec yields a Go string). -/
abbrev Value := String

/-- Errors the store returns.  `wrap m e` is `fmt.Errorf(m + ": %w", e)`. -/
inductive Error where
  | notConnected
  | notExist (key : Key)
  | wrap (msg : String) (inner : Error)
  | other (msg : String)
  deriving DecidableEq, Repr

/-- The `instance.Config` document: its name and the rest of its content. -/
structure Config where
  Name : String
  body : String
  deriving DecidableEq, Repr

/-- The `kv.Config` settings read by `ApplyConfig`. -/
structure KVConfig where
  Store : String
  consulHost : String
  consulACLToken : String
  deriving DecidableEq, Repr

/-- Calls issued on a KV client (generic or consul handle). -/
inductive KVCall where
  | list (pfx : String)
  | get (key : Key)
  | delete (key : Key)
  | cas (key : Key)
  | allConsul
  deriving DecidableEq, Repr

/-- The backend as seen through clients: contents and the calls made so far. -/
structure World where
  data : List (Key × Value)
  calls : List KVCall
  deriving DecidableEq, Repr

/-- Append one call to the log. -/
def World.record (w : World) (c : KVCall) : World :=
  { w with calls := w.calls ++ [c] }

/-- How a Go call ends: it returns a value, blocks forever, or fails at run
time (nil dereference, send on a closed channel). -/
inductive Outcome (α : Type) where
  | ret (a : α)
  | blocked
  | panicked
  deriving DecidableEq, Repr

/-- Reply of the callback handed to `CAS`: `(out, retry, err)`. -/
structure CasReply where
  out : Value
  retry : Bool
  err : Option Error

/-- What a `CAS` call did: its error, the contents afterwards, and the inputs
it handed to the callback, in order. -/
structure CasResult where
  err : Option Error
  data : List (Key × Value)
  seen : List (Option Value)

/-- The generic `kv.Client` interface: one response function per method.
Reads answer from the world (so answers may vary with the call history) and
leave the contents alone; `delete` and `cas` also yield the new contents. -/
structure Client where
  list : World → String → Except Error (List Key)
  get : World → Key → Except Error (Option Value)
  delete : World → Key → Option Error × List (Key × Value)
  cas : World → Key → (Option Value → CasReply) → CasResult

/-- The direct consul handle.  `all` stands for `RemoteClient.AllConsul`
(defined outside this file): it gives either an error or the batches that a
consumer of the returned channel receives before the channel is closed. -/
structure ConsulClient where
  all : World → Option (Key → Bool) → Except Error (List (List Config))

/-- The `RemoteClient` adapter built by `setClient`. -/
structure RemoteClient where
  client : Option Client
  consul : Option ConsulClient
  config : KVConfig

/-- Collaborators of the store that are defined elsewhere.  `newClient` is
`kv.NewClient` and `registers` names the collectors that a call to it leaves
registered on the registerer it is handed; `newConsul` is `api.NewClient`. -/
structure Env where
  marshal : Config → Except Error Value
  unmarshal : Value → Except Error Config
  checkUnique : List (List Config) → Config → Option Error
  newClient : KVConfig → Except Error Client
  registers : KVConfig → List String
  newConsul : KVConfig → Except Error ConsulClient

/-- The `Remote` store.  `reg` lists the collectors registered through
`r.reg`; `reloadSent` counts the sends performed on `reloadKV`; `cancelled`
is `cancelCtx.Err() != nil`. -/
structure Remote where
  kv : Option RemoteClient
  reg : List String
  reloadSent : Nat
  cancelled : Bool

/-- A result together with the world it leaves behind. -/
structure Res (α : Type) where
  out : Outcome α
  world : World

/-! ## Calls through the adapter -/

/-- Calling `r.kv.List(ctx, pfx)`; a nil embedded client is a nil dereference. -/
def kvList (rc : RemoteClient) (w : World) (pfx : String) :
    Outcome (Except Error (List Key)) × World :=
  match rc.client with
  | none => (.panicked, w)
  | some cl => (.ret (cl.list w pfx), w.record (.list pfx))

/-- Calling `r.kv.Get(ctx, key)`. -/
def kvGet (rc : RemoteClient) (w : World) (key : Key) :
    Outcome (Except Error (Option Value)) × World :=
  match rc.client with
  | none => (.panicked, w)
  | some cl => (.ret (cl.get w key), w.record (.get key))

/-- Calling `r.kv.Delete(ctx, key)`. -/
def kvDelete (rc : RemoteClient) (w : World) (key : Key) :
    Outcome (Option Error) × World :=
  match rc.client with
  | none => (.panicked, w)
  | some cl =>
    let r := cl.delete w key
    (.ret r.1, { data := r.2, calls := w.calls ++ [.delete key] })

/-- Calling `r.kv.CAS(ctx, key, f)`. -/
def kvCAS (rc : RemoteClient) (w : World) (key : Key) (f : Option Value → CasReply) :
    Outcome CasResult × World :=
  match rc.client with
  | none => (.panicked, w)
  | some cl =>
    let r := cl.cas w key f
    (.ret r, { data := r.data, calls := w.calls ++ [.cas key] })

/-! ## ApplyConfig and setClient -/

/-- The method `setClient`: install the adapter (or nil) and send one reload
signal. -/
def setClient (r : Remote) (client : Option Client) (consulClient : Option ConsulClient)
    (config : KVConfig) : Remote :=
  let kv : Option RemoteClient :=
    match client, consulClient with
    | none, none => none
    | _, _ => some { client := client, consul := consulClient, config := config }
  { r with kv := kv, reloadSent := r.reloadSent + 1 }

/-- Splits a constructor result into Go's `(value, err)` pair. -/
def goPair {α : Type} (x : Except Error α) : Option α × Option Error :=
  match x with
  | .ok a => (some a, none)
  | .error e => (none, some e)

/-- The method `UnregisterAll` of `r.reg` (line 90): every collector that the
previous client registered is dropped. -/
def unregisterAll (r : Remote) : Remote := { r with reg := [] }

/-- The method `Remote.ApplyConfig`.  The closed-store guard comes first,
then `r.reg.UnregisterAll()`, then the constructors.  In the consul branch
`err` is assigned again by the consul constructor, as in the source. -/
def ApplyConfig (env : Env) (r : Remote) (cfg : KVConfig) (enable : Bool) :
    Option Error × Remote :=
  if r.cancelled then (some (.other "remote store already stopped"), r)
  else
    let r0 := unregisterAll r
    if !enable then (none, setClient r0 none none ⟨"", "", ""⟩)
    else
      let p := goPair (env.newClient cfg)
      let r1 : Remote := { r0 with reg := r0.reg ++ env.registers cfg }
      let cli := p.1
      if cfg.Store = "consul" then
        let q := goPair (env.newConsul cfg)
        match q.2 with
        | some e => (some e, r1)
        | none => (none, setClient r1 cli q.1 cfg)
      else
        match p.2 with
        | some e => (some (.wrap "failed to create kv client" e), r1)
        | none => (none, setClient r1 cli none cfg)

/-- The constructor `NewRemote`: a fresh store, then `ApplyConfig`; the
dispatch loop is started only when that succeeded. -/
def NewRemote (env : Env) (cfg : KVConfig) (enable : Bool) : Except Error Remote :=
  let r : Remote := { kv := none, reg := [], reloadSent := 0, cancelled := false }
  match ApplyConfig env r cfg enable with
  | (some e, _) => .error (.wrap "failed to apply config for config store" e)
  | (none, r1) => .ok r1

/-- The method `Remote.Close`: cancels the root context. -/
def Close (r : Remote) : Remote := { r with cancelled := true }

/-- What `watchKV` does with the client it is given. -/
inductive WatchMode where
  | notWatching
  | consulEvents
  | prefixWatch
  deriving DecidableEq, Repr

/-- The mode selection of `watchKV` (lines 169 to 194): nothing for a nil
client, the consul bulk watch when the consul handle is set, the generic
watch of the empty key range with the callback below otherwise. -/
def watchKV (client : Option RemoteClient) : WatchMode :=
  match client with
  | none => .notWatching
  | some rc =>
    match rc.consul with
    | some _ => .consulEvents
    | none => .prefixWatch

/-! ## The channel of `allOther`

Lines 350 to 357 and 384 to 386 of the source: an unbuffered channel `ch`, a
wait group set to `len(keys)` on which `Done` is never called, a goroutine
that waits for the group and then closes `ch`, and the calling goroutine that
sends the batch on `ch` before it returns `ch`.  The consumer is whoever
receives the returned channel, so it holds `ch` only once the caller has
returned. -/

/-- The goroutines that can touch `ch`. -/
inductive Gor where
  | caller
  | closer
  | consumer
  deriving DecidableEq, Repr

/-- Where the calling goroutine stands. -/
inductive CallerPc where
  | atSend
  | returned
  | panicked
  deriving DecidableEq, Repr

/-- State of the three goroutines and of `ch`. -/
structure ChanSys where
  wg : Nat
  batch : List Config
  callerPc : CallerPc
  closerDone : Bool
  closed : Bool
  receiving : Bool
  delivered : List (List Config)
  sawClose : Bool
  deriving DecidableEq, Repr

/-- State when the caller reaches `ch <- configs`. -/
def ChanSys.init (nkeys : Nat) (batch : List Config) : ChanSys :=
  { wg := nkeys, batch := batch, callerPc := .atSend, closerDone := false,
    closed := false, receiving := false, delivered := [], sawClose := false }

/-- One step of one goroutine; `none` when it cannot move (it is blocked or
has finished).
* closer: `wg.Wait()` passes only at counter zero, then `close(ch)`.
* caller: a send on a closed channel fails; a send on an open unbuffered
  channel completes only against a receiver that is waiting.
* consumer: it has the channel only after the caller returned; it then waits
  in a receive, or sees the close. -/
def ChanSys.step (g : Gor) (s : ChanSys) : Option ChanSys :=
  match g with
  | .closer =>
    if s.closerDone = false ∧ s.wg = 0 then
      some { s with closerDone := true, closed := true }
    else none
  | .caller =>
    match s.callerPc with
    | .atSend =>
      if s.closed then some { s with callerPc := .panicked }
      else if s.receiving then
        some { s with callerPc := .returned, receiving := false,
                      delivered := s.delivered ++ [s.batch] }
      else none
    | _ => none
  | .consumer =>
    match s.callerPc with
    | .returned =>
      if s.sawClose then none
      else if s.closed then some { s with sawClose := true }
      else if s.receiving then none
      else some { s with receiving := true }
    | _ => none

/-- Run a schedule: each listed goroutine moves if it can. -/
def ChanSys.run (sched : List Gor) (s : ChanSys) : ChanSys :=
  sched.foldl (fun st g => (st.step g).getD st) s

/-- How the send at line 384 ends for the caller: the closer is given its
turn first, then the caller. -/
def sendOutcome (nkeys : Nat) (batch : List Config) : Outcome (List (List Config)) :=
  let s := (ChanSys.init nkeys batch).run [.closer, .caller]
  match s.callerPc with
  | .returned => .ret s.delivered
  | .panicked => .panicked
  | .atSend => .blocked

/-! ## Store operations -/

/-- The method `Remote.Get`. -/
def Get (env : Env) (r : Remote) (w : World) (key : Key) : Res (Except Error Config) :=
  match r.kv with
  | none => ⟨.ret (.error .notConnected), w⟩
  | some rc =>
    match kvGet rc w key with
    | (.blocked, w1) => ⟨.blocked, w1⟩
    | (.panicked, w1) => ⟨.panicked, w1⟩
    | (.ret (.error e), w1) =>
      ⟨.ret (.error (.wrap ("failed to get config " ++ key) e)), w1⟩
    | (.ret (.ok none), w1) => ⟨.ret (.error (.notExist key)), w1⟩
    | (.ret (.ok (some v)), w1) =>
      match env.unmarshal v with
      | .error e => ⟨.ret (.error (.wrap ("failed to unmarshal config " ++ key) e)), w1⟩
      | .ok cfg => ⟨.ret (.ok cfg), w1⟩

/-- The method `Remote.Delete`: a failed existence probe is only logged, a nil
value ends the call with `NotExistError`, otherwise the delete is issued. -/
def Delete (r : Remote) (w : World) (key : Key) : Res (Option Error) :=
  match r.kv with
  | none => ⟨.ret (some .notConnected), w⟩
  | some rc =>
    match kvGet rc w key with
    | (.blocked, w1) => ⟨.blocked, w1⟩
    | (.panicked, w1) => ⟨.panicked, w1⟩
    | (.ret (.ok none), w1) => ⟨.ret (some (.notExist key)), w1⟩
    | (.ret _, w1) =>
      match kvDelete rc w1 key with
      | (.blocked, w2) => ⟨.blocked, w2⟩
      | (.panicked, w2) => ⟨.panicked, w2⟩
      | (.ret (some e), w2) => ⟨.ret (some (.wrap "error deleting configuration" e)), w2⟩
      | (.ret none, w2) => ⟨.ret none, w2⟩

/-- Whether the loop of `allOther` skips a key because of the filter:
`keep != nil && !keep(key)`. -/
def filteredOut (keep : Option (Key → Bool)) (key : Key) : Bool :=
  match keep with
  | none => false
  | some k => !k key

/-- The loop of `allOther` (lines 359 to 383): `configs` is extended by the
decoded value of each key that is kept, fetched and decoded; every other key
is skipped with `continue`. -/
def allOtherLoop (env : Env) (rc : RemoteClient) (keep : Option (Key → Bool)) :
    List Key → World → List Config → Outcome (List Config) × World
  | [], w, configs => (.ret configs, w)
  | key :: rest, w, configs =>
    if filteredOut keep key then allOtherLoop env rc keep rest w configs
    else
      match kvGet rc w key with
      | (.blocked, w1) => (.blocked, w1)
      | (.panicked, w1) => (.panicked, w1)
      | (.ret (.error _), w1) => allOtherLoop env rc keep rest w1 configs
      | (.ret (.ok none), w1) => allOtherLoop env rc keep rest w1 configs
      | (.ret (.ok (some v)), w1) =>
        match env.unmarshal v with
        | .error _ => allOtherLoop env rc keep rest w1 configs
        | .ok cfg => allOtherLoop env rc keep rest w1 (configs ++ [cfg])

/-- The method `Remote.allOther`.  A successful result stands for the
returned channel: the batches its consumer receives before the close. -/
def allOther (env : Env) (r : Remote) (w : World) (keep : Option (Key → Bool)) :
    Res (Except Error (List (List Config))) :=
  match r.kv with
  | none => ⟨.ret (.error .notConnected), w⟩
  | some rc =>
    match kvList rc w "" with
    | (.blocked, w1) => ⟨.blocked, w1⟩
    | (.panicked, w1) => ⟨.panicked, w1⟩
    | (.ret (.error e), w1) => ⟨.ret (.error (.wrap "failed to list configs" e)), w1⟩
    | (.ret (.ok keys), w1) =>
      match allOtherLoop env rc keep keys w1 [] with
      | (.blocked, w2) => ⟨.blocked, w2⟩
      | (.panicked, w2) => ⟨.panicked, w2⟩
      | (.ret configs, w2) =>
        match sendOutcome keys.length configs with
        | .blocked => ⟨.blocked, w2⟩
        | .panicked => ⟨.panicked, w2⟩
        | .ret delivered => ⟨.ret (.ok delivered), w2⟩

/-- The method `Remote.all`: the consul handle, when present, answers in one
bulk call; otherwise `allOther`. -/
def all (env : Env) (r : Remote) (w : World) (keep : Option (Key → Bool)) :
    Res (Except Error (List (List Config))) :=
  match r.kv with
  | none => ⟨.ret (.error .notConnected), w⟩
  | some rc =>
    match rc.consul with
    | some h => ⟨.ret (h.all w keep), w.record .allConsul⟩
    | none => allOther env r w keep

/-- The method `Remote.All`. -/
def All (env : Env) (r : Remote) (w : World) (keep : Option (Key → Bool)) :
    Res (Except Error (List (List Config))) :=
  all env r w keep

/-- Value of the variable `created` after `CAS`: it starts false and every
invocation of the callback assigns `in == nil`. -/
def createdAfter (seen : List (Option Value)) : Bool :=
  seen.foldl (fun _ i => i.isNone) false

/-- The method `Remote.Put`; the result is the pair `(created, err)`. -/
def Put (env : Env) (r : Remote) (w : World) (c : Config) : Res (Bool × Option Error) :=
  match r.kv with
  | none => ⟨.ret (false, some .notConnected), w⟩
  | some rc =>
    match env.marshal c with
    | .error e => ⟨.ret (false, some (.wrap "failed to marshal config" e)), w⟩
    | .ok bb =>
      let a := all env r w none
      match a.out with
      | .blocked => ⟨.blocked, a.world⟩
      | .panicked => ⟨.panicked, a.world⟩
      | .ret (.error e) =>
        ⟨.ret (false, some (.wrap "failed to check validity of config" e)), a.world⟩
      | .ret (.ok cfgCh) =>
        match env.checkUnique cfgCh c with
        | some e =>
          ⟨.ret (false, some (.wrap "failed to check uniqueness of config" e)), a.world⟩
        | none =>
          match kvCAS rc a.world c.Name (fun _ => ⟨bb, false, none⟩) with
          | (.blocked, w2) => ⟨.blocked, w2⟩
          | (.panicked, w2) => ⟨.panicked, w2⟩
          | (.ret cr, w2) =>
            match cr.err with
            | some e => ⟨.ret (false, some (.wrap "failed to put config" e)), w2⟩
            | none => ⟨.ret (createdAfter cr.seen, none), w2⟩

/-- Result type of `Remote.List`. -/
abbrev ListResult := Res (Except Error (List Key))

/-- The method `Remote.List`. -/
def Remote.List (r : Remote) (w : World) : ListResult :=
  match r.kv with
  | none => ⟨.ret (.error .notConnected), w⟩
  | some rc =>
    match kvList rc w "" with
    | (.blocked, w1) => ⟨.blocked, w1⟩
    | (.panicked, w1) => ⟨.panicked, w1⟩
    | (.ret res, w1) => ⟨.ret res, w1⟩

/-! ## The generic watch callback -/

/-- One change notification; a missing `Config` is a deletion. -/
structure WatchEvent where
  Key : Key
  Config : Option Config
  deriving DecidableEq, Repr

/-- A batch of notifications. -/
structure WatchBundle where
  Events : List WatchEvent
  deriving DecidableEq, Repr

/-- The statement `r.configsCh <- bundle`.  The channel is unbuffered and its
receiving end is handed out by `Watch()`: the send completes when a consumer
receives (`consumer = true`) and otherwise stays blocked.  `sent` lists the
bundles handed over so far. -/
def sendBundle (consumer : Bool) (sent : List WatchBundle) (b : WatchBundle) :
    Outcome Unit × List WatchBundle :=
  if consumer then (.ret (), sent ++ [b]) else (.blocked, sent)

/-- The callback that `watchKV` passes to `WatchPrefix` (lines 194 to 216).
`ctxErr` is `ctx.Err() != nil`; `v` is the changed value, `none` for nil. -/
def watchPrefixCallback (env : Env) (ctxErr consumer : Bool) (sent : List WatchBundle)
    (key : Key) (v : Option Value) : Outcome Bool × List WatchBundle :=
  if ctxErr then (.ret false, sent)
  else
    match v with
    | none =>
      match sendBundle consumer sent ⟨[⟨key, none⟩]⟩ with
      | (.ret _, sent1) => (.ret true, sent1)
      | (.blocked, sent1) => (.blocked, sent1)
      | (.panicked, sent1) => (.panicked, sent1)
    | some raw =>
      match env.unmarshal raw with
      | .error _ => (.ret true, sent)
      | .ok cfg =>
        match sendBundle consumer sent ⟨[⟨key, some cfg⟩]⟩ with
        | (.ret _, sent1) => (.ret true, sent1)
        | (.blocked, sent1) => (.blocked, sent1)
        | (.panicked, sent1) => (.panicked, sent1)

/-! ## Concrete collaborators used in evaluations -/

/-- Look a key up in the contents. -/
def lookupKey (data : List (Key × Value)) (key : Key) : Option Value :=
  (data.find? (fun kv => kv.1 = key)).map (fun kv => kv.2)

/-- Store a value under a key, replacing any earlier value. -/
def storeKey (data : List (Key × Value)) (key : Key) (v : Value) : List (Key × Value) :=
  (data.filter (fun kv => kv.1 ≠ key)) ++ [(key, v)]

/-- An in-memory client that never fails: `list` gives the stored keys, `get`
the stored value, `delete` removes the key, and `cas` hands the stored value
to the callback once and stores the output unless the callback reports an
error. -/
def memClient : Client where
  list := fun w _ => .ok (w.data.map (fun kv => kv.1))
  get := fun w key => .ok (lookupKey w.data key)
  delete := fun w key => (none, w.data.filter (fun kv => kv.1 ≠ key))
  cas := fun w key f =>
    let i := lookupKey w.data key
    let rep := f i
    match rep.err with
    | some e => ⟨some e, w.data, [i]⟩
    | none => ⟨none, storeKey w.data key rep.out, [i]⟩

/-- A toy codec: the document `name:body`, split at the first colon; a
document without a colon does not decode. -/
def toyUnmarshal (v : Value) : Except Error Config :=
  let name := v.data.takeWhile (fun ch => ch != ':')
  match v.data.dropWhile (fun ch => ch != ':') with
  | [] => .error (.other "cannot decode")
  | _ :: b => .ok ⟨String.mk name, String.mk b⟩

/-- Collaborators for evaluations: the toy codec, a uniqueness check that
rejects a stored config of another name with the same body, and constructors
that succeed except for the store name `bad`, the generic one registering a
single collector when it succeeds. -/
def toyEnv : Env where
  marshal := fun c => .ok (c.Name ++ ":" ++ c.body)
  unmarshal := toyUnmarshal
  checkUnique := fun batches c =>
    if batches.any (fun b => b.any (fun d => d.Name ≠ c.Name ∧ d.body = c.body))
    then some (.other "found multiple scrape configs with the same job name") else none
  newClient := fun cfg => if cfg.Store = "bad" then .error (.other "bad store") else .ok memClient
  registers := fun cfg => if cfg.Store = "bad" then [] else ["agent_configs"]
  newConsul := fun _ => .ok ⟨fun _ _ => .ok []⟩

/-- A store connected to the in-memory client on the generic path. -/
def memStore : Remote :=
  { kv := some { client := some memClient, consul := none, config := ⟨"inmemory", "", ""⟩ },
    reg := ["agent_configs"], reloadSent := 1, cancelled := false }

/-- The in-memory store after `Close`. -/
def closedStore : Remote := Close memStore

/-- A consul handle for evaluations: one bulk read that decodes the stored
documents in memory and gives a single batch of those that pass the filter
and decode. -/
def memConsul : ConsulClient where
  all := fun w keep =>
    .ok [w.data.filterMap (fun kv =>
      if filteredOut keep kv.1 then none else (toyUnmarshal kv.2).toOption)]

/-- A store connected to the in-memory client together with a consul handle. -/
def consulStore : Remote :=
  { kv := some { client := some memClient, consul := some memConsul,
                 config := ⟨"consul", "localhost:8500", ""⟩ },
    reg := ["agent_configs"], reloadSent := 1, cancelled := false }

/-- Collaborators for evaluations in which no client can be built: the
generic constructor fails for every config, and so does the consul
constructor, which the generic consul client runs on the same address, token
and scheme. -/
def noClientEnv : Env :=
  { toyEnv with
    newClient := fun _ => .error (.other "cannot build kv client")
    registers := fun _ => []
    newConsul := fun _ => .error (.other "cannot build consul client") }

/-! ## The batch of the generic path, as described

The description of the generic path read on its own: take the listed keys
that pass the filter, fetch them one after the other, and keep the decoded
value of each fetch that gave a value that decodes. -/

/-- Fetch the given keys in order; the answers, and the world afterwards. -/
def fetchAll (cl : Client) : List Key → World → List (Except Error (Option Value)) × World
  | [], w => ([], w)
  | key :: rest, w =>
    let r := fetchAll cl rest (w.record (.get key))
    (cl.get w key :: r.1, r.2)

/-- The config a fetch contributes: none for an error, for a nil value and
for a value that does not decode. -/
def decodeFetched (env : Env) (x : Except Error (Option Value)) : Option Config :=
  match x with
  | .ok (some v) => (env.unmarshal v).toOption
  | _ => none

/-- The batch as described: decoded fetches of the kept keys, in list order. -/
def expectedBatch (env : Env) (cl : Client) (keep : Option (Key → Bool)) (keys : List Key)
    (w : World) : List Config :=
  (fetchAll cl (keys.filter (fun k => !filteredOut keep k)) w).1.filterMap (decodeFetched env)

/-- Whether a call changes the contents. -/
def KVCall.isWrite : KVCall → Bool
  | .cas _ => true
  | .delete _ => true
  | _ => false

end Configstore

/-! # Integration controller

The controller (`newController`, `UpdateController`, `Targets`) is described
by the specification and exercised by `controller_metricsintegration_test.go`
and `controller_updateintegration_test.go`.  The definitions below follow the
specification; the test fixtures follow the tests. -/

namespace Integrations

/-- Agent-wide read-only context handed to factories and updates. -/
abbrev Globals := String

/-- Identity of a desired config: the pair (Name, Identifier). -/
abbrev Identity := String × String

/-- One target group: the addresses it lists. -/
structure TargetGroup where
  Targets : List String
  deriving DecidableEq, Repr

/-- The name filter of `Targets`; an empty list filters nothing. -/
structure TargetOptions where
  Integrations : List String
  deriving DecidableEq, Repr

/-- What one config shows of itself to `ConfigEquals` and `ApplyConfig`. -/
structure Settings where
  Name : String
  payload : String
  deriving DecidableEq, Repr

/-- Errors of a live update; `disabled` is `ErrDisabled`. -/
inductive ApplyError where
  | disabled
  | failed (msg : String)
  deriving DecidableEq, Repr

/-- Modelled from the spec: the Integration of the data model, a running task
with optional capabilities.  `metrics` is the Metrics capability
(`Targets(prefix)`), `update` the Update capability
(`ApplyConfig(newConfig, Globals)`; none for success). -/
structure Integration where
  metrics : Option (String → List TargetGroup)
  update : Option (Settings → Globals → Option ApplyError)

/-- Modelled from the spec: the Config Descriptor of the data model: `Name`,
`Identifier(Globals)`, `ConfigEquals(other)` and the factory producing an
Integration. -/
structure Config where
  Name : String
  payload : String
  Identifier : Globals → Except String String
  ConfigEquals : Settings → Bool
  NewIntegration : Globals → Except String Integration

/-- The view of a config passed to `ConfigEquals` and `ApplyConfig`. -/
def Config.settings (c : Config) : Settings := ⟨c.Name, c.payload⟩

/-- Modelled from the spec: the Instance Supervisor, binding one identity,
its config and its running integration. -/
structure Instance where
  id : Identity
  cfg : Config
  integ : Integration

/-- What happens to run tasks and integrations, in order: a task is started,
a task is cancelled (and awaited), `ApplyConfig` is invoked. -/
inductive Event where
  | start (id : Identity)
  | cancel (id : Identity)
  | apply (id : Identity)
  deriving DecidableEq, Repr

/-- Modelled from the spec: the Integration Controller: the supervised
instances in desired-config order, the history of task events, and the
errors surfaced for single identities. -/
structure Controller where
  instances : List Instance
  events : List Event
  surfaced : List String

/-- Modelled from the spec: identity = (Name, Identifier(Globals)) for every
entry, failing when an identifier cannot be computed. -/
def identifyAll (g : Globals) : List Config → Except String (List (Identity × Config))
  | [] => .ok []
  | c :: rest =>
    match c.Identifier g with
    | .error e => .error e
    | .ok i =>
      match identifyAll g rest with
      | .error e => .error e
      | .ok ics => .ok (((c.Name, i), c) :: ics)

/-- Modelled from the spec: the uniqueness of the identities of a desired
config list: no identity occurs twice. -/
def distinct : List Identity → Bool
  | [] => true
  | x :: rest => !rest.contains x && distinct rest

/-- Modelled from the spec: starting a fresh supervisor from the factory of a
config; a factory failure aborts that start only and is surfaced. -/
def startFresh (g : Globals) (ic : Identity × Config) :
    Option Instance × List Event × List String :=
  match ic.2.NewIntegration g with
  | .error e => (none, [], [e])
  | .ok integ => (some ⟨ic.1, ic.2, integ⟩, [.start ic.1], [])

/-- Modelled from the spec: the start of all initial configs by `New`, which
fails fast when a factory fails. -/
def startAll (g : Globals) : List (Identity × Config) → Except String (List Instance)
  | [] => .ok []
  | ic :: rest =>
    match ic.2.NewIntegration g with
    | .error e => .error e
    | .ok integ =>
      match startAll g rest with
      | .error e => .error e
      | .ok insts => .ok (⟨ic.1, ic.2, integ⟩ :: insts)

/-- Modelled from the spec: `New(logger, initialConfigs, Globals)`, which
validates the uniqueness of the initial identities and starts one supervisor
per config, failing when an identity collides or a factory fails. -/
def newController (cfgs : List Config) (g : Globals) : Except String Controller :=
  match identifyAll g cfgs with
  | .error e => .error e
  | .ok ics =>
    if distinct (ics.map (fun ic => ic.1)) then
      match startAll g ics with
      | .error e => .error e
      | .ok insts => .ok ⟨insts, insts.map (fun i => .start i.id), []⟩
    else .error "multiple configs with the same identity"

/-- The running instance of an identity, if any. -/
def findInstance (old : List Instance) (id : Identity) : Option Instance :=
  old.find? (fun i => i.id = id)

/-- Modelled from the spec: the decision of the reconciliation for one
desired config (steps 2 and 4).  For an identity that is running: nothing
when `ConfigEquals`, asked of the running config about the new one, reports
no change; otherwise `ApplyConfig` when the
integration has the Update capability (success replaces the stored config in
place, `ErrDisabled` and any other error stop and remove the instance, the
latter surfacing the error); otherwise the old supervisor is stopped and a
fresh one started.  For an identity that is not running: a fresh start. -/
def reconcileOne (g : Globals) (old : List Instance) (ic : Identity × Config) :
    Option Instance × List Event × List String :=
  match findInstance old ic.1 with
  | none => startFresh g ic
  | some inst =>
    if inst.cfg.ConfigEquals ic.2.settings then (some inst, [], [])
    else
      match inst.integ.update with
      | some applyConfig =>
        match applyConfig ic.2.settings g with
        | none => (some { inst with cfg := ic.2 }, [.apply ic.1], [])
        | some .disabled => (none, [.apply ic.1, .cancel ic.1], [])
        | some (.failed m) => (none, [.apply ic.1, .cancel ic.1], [m])
      | none =>
        let r := startFresh g ic
        (r.1, .cancel ic.1 :: r.2.1, r.2.2)

/-- Modelled from the spec: `UpdateController(newConfigs, Globals)`.  Step 1
computes the identities and aborts without effect on a collision; step 2
handles the identities that are running, step 3 stops those that are no
longer desired, step 4 starts the new ones, step 5 takes over the order of
the new configs. -/
def UpdateController (c : Controller) (cfgs : List Config) (g : Globals) :
    Option String × Controller :=
  match identifyAll g cfgs with
  | .error e => (some e, c)
  | .ok ics =>
    if distinct (ics.map (fun ic => ic.1)) then
      let running := fun (ic : Identity × Config) => (findInstance c.instances ic.1).isSome
      let step2 := (ics.filter running).map (reconcileOne g c.instances)
      let step3 := (c.instances.filter
        (fun i => !(ics.map (fun ic => ic.1)).contains i.id)).map (fun i => Event.cancel i.id)
      let step4 := (ics.filter (fun ic => !running ic)).map (reconcileOne g c.instances)
      let insts := (ics.map (reconcileOne g c.instances)).filterMap (fun r => r.1)
      (none,
       ⟨insts,
        c.events ++ step2.flatMap (fun r => r.2.1) ++ step3 ++ step4.flatMap (fun r => r.2.1),
        c.surfaced ++ step2.flatMap (fun r => r.2.2) ++ step4.flatMap (fun r => r.2.2)⟩)
    else (some "multiple configs with the same identity", c)

/-- Modelled from the spec: the optional name filter of `Targets`; with no
names given nothing is filtered out. -/
def passesFilter (opts : TargetOptions) (name : String) : Bool :=
  opts.Integrations.isEmpty || opts.Integrations.contains name

/-- Modelled from the spec: `Targets(prefix, options)`, which walks the
instances in desired-config order, skips those filtered out or lacking the
Metrics capability, and concatenates the `Targets(prefix)` of the others. -/
def Controller.Targets (c : Controller) (pfx : String) (opts : TargetOptions) :
    List TargetGroup :=
  c.instances.flatMap (fun inst =>
    if passesFilter opts inst.cfg.Name then
      match inst.integ.metrics with
      | some targets => targets pfx
      | none => []
    else [])

/-- The contribution of one desired config to `Targets`, read off the
config: when the filter is empty or names the config, the target groups of
the integration its factory makes, if that has the Metrics capability. -/
def contribution (g : Globals) (pfx : String) (opts : TargetOptions) (cfg : Config) :
    List TargetGroup :=
  if opts.Integrations = [] ∨ cfg.Name ∈ opts.Integrations then
    match cfg.NewIntegration g with
    | .ok integ =>
      match integ.metrics with
      | some targets => targets pfx
      | none => []
    | .error _ => []
  else []

/-- An integration exposing one target group with one address. -/
def integrationWithTarget (targetName : String) : Integration :=
  { metrics := some (fun _ => [⟨[targetName]⟩]), update := none }

/-- The test config `mockConfigNameTuple(name, id)` with the given factory. -/
def mockConfigNameTuple (name id : String) (integ : Integration) : Config :=
  { Name := name, payload := "", Identifier := fun _ => .ok id,
    ConfigEquals := fun other => other.Name = name,
    NewIntegration := fun _ => .ok integ }

/-- The test integration of `Test_controller_UpdateIntegration`: it has the
Update capability and its `ApplyConfig` succeeds. -/
def mockUpdateIntegration : Integration :=
  { metrics := none, update := some (fun _ _ => none) }

/-- The test config of `Test_controller_UpdateIntegration`: `ConfigEquals`
always reports a change. -/
def mockUpdateConfig : Config :=
  { Name := "mock", payload := "", Identifier := fun _ => .ok "mock",
    ConfigEquals := fun _ => false,
    NewIntegration := fun _ => .ok mockUpdateIntegration }

/-- The two desired configs of `Test_controller_MetricsIntegration_Targets`. -/
def targetsTestConfigs : List Config :=
  [mockConfigNameTuple "a" "instanceA" (integrationWithTarget "a"),
   mockConfigNameTuple "b" "instanceB" (integrationWithTarget "b")]

/-- The controller of `Test_controller_UpdateIntegration` once its single
integration has been started. -/
def updateTestController : Controller :=
  ⟨[⟨("mock", "mock"), mockUpdateConfig, mockUpdateIntegration⟩], [.start ("mock", "mock")], []⟩

/-- Number of occurrences of an event. -/
def occurrences (e : Event) (es : List Event) : Nat := es.count e

end Integrations

/-! # Properties -/

namespace Configstore


/-! ## Shared lemmas -/

/-- One step keeps the caller short of `returned`, keeps the consumer out of
a receive, and delivers nothing, when that held before the step. -/
lemma ChanSys.step_keeps_caller_waiting (g : Gor) (s t : ChanSys)
    (hpc : s.callerPc ≠ .returned) (hrecv : s.receiving = false)
    (hstep : s.step g = some t) :
    t.callerPc ≠ .returned ∧ t.receiving = false ∧ t.delivered = s.delivered := by
  cases g with
  | closer =>
    simp only [ChanSys.step] at hstep
    split at hstep
    · cases hstep; exact ⟨hpc, hrecv, rfl⟩
    · cases hstep
  | caller =>
    simp only [ChanSys.step] at hstep
    split at hstep
    · split at hstep
      · cases hstep; simp [hrecv]
      · simp [hrecv] at hstep
    · cases hstep
  | consumer =>
    cases hc : s.callerPc with
    | returned => exact absurd hc hpc
    | atSend => simp [ChanSys.step, hc] at hstep
    | panicked => simp [ChanSys.step, hc] at hstep

/-- Under every schedule the caller stays short of `returned`. -/
lemma ChanSys.run_keeps_caller_waiting (sched : List Gor) :
    ∀ s : ChanSys, s.callerPc ≠ .returned → s.receiving = false →
      (s.run sched).callerPc ≠ .returned ∧ (s.run sched).receiving = false ∧
      (s.run sched).delivered = s.delivered := by
  induction sched with
  | nil => intro s hpc hrecv; exact ⟨hpc, hrecv, rfl⟩
  | cons g rest ih =>
    intro s hpc hrecv
    have hrun : s.run (g :: rest) = ((s.step g).getD s).run rest := rfl
    rw [hrun]
    cases hstep : s.step g with
    | none => simpa using ih s hpc hrecv
    | some t =>
      obtain ⟨h1, h2, h3⟩ := ChanSys.step_keeps_caller_waiting g s t hpc hrecv hstep
      obtain ⟨k1, k2, k3⟩ := ih t h1 h2
      simp only [Option.getD_some]
      exact ⟨k1, k2, k3.trans h3⟩

/-- With a wait-group count above zero nothing ever moves: the channel stays
open and the caller stays in its send. -/
lemma ChanSys.run_stuck_of_pos (sched : List Gor) :
    ∀ s : ChanSys, s.wg ≠ 0 → s.callerPc = .atSend → s.receiving = false →
      s.closed = false → s.run sched = s := by
  induction sched with
  | nil => intro s _ _ _ _; rfl
  | cons g rest ih =>
    intro s hwg hpc hrecv hclosed
    have hstep : s.step g = none := by
      cases g <;> simp [ChanSys.step, hwg, hpc, hrecv, hclosed]
    have hrun : s.run (g :: rest) = ((s.step g).getD s).run rest := rfl
    rw [hrun, hstep]
    exact ih s hwg hpc hrecv hclosed

/-- The send at line 384 never lets the caller go on. -/
lemma sendOutcome_ne_ret (nkeys : Nat) (batch : List Config) (d : List (List Config)) :
    sendOutcome nkeys batch ≠ .ret d := by
  have h := (ChanSys.run_keeps_caller_waiting [.closer, .caller]
    (ChanSys.init nkeys batch) (by simp [ChanSys.init]) rfl).1
  unfold sendOutcome
  intro hret
  revert h hret
  generalize ((ChanSys.init nkeys batch).run [.closer, .caller]) = s
  intro h hret
  cases hpc : s.callerPc <;> simp [hpc] at h hret

/-- The send ends in a run-time failure for an empty key list and blocks
otherwise. -/
lemma sendOutcome_eq (nkeys : Nat) (batch : List Config) :
    sendOutcome nkeys batch = if nkeys = 0 then .panicked else .blocked := by
  by_cases h : nkeys = 0
  · subst h; rfl
  · simp [sendOutcome, ChanSys.run, ChanSys.step, ChanSys.init, h]

/-- The generic bulk read does not return a channel. -/
lemma allOther_ne_ok (env : Env) (r : Remote) (w : World) (keep : Option (Key → Bool))
    (d : List (List Config)) : (allOther env r w keep).out ≠ .ret (.ok d) := by
  unfold allOther
  split
  · simp
  · split
    · simp
    · simp
    · simp
    · split
      · simp
      · simp
      · split
        · simp
        · simp
        · rename_i hs
          exact absurd hs (sendOutcome_ne_ret _ _ _)

/-- The loop of the generic path computes the batch as described, whatever
the clients answer: it never stops early. -/
lemma allOtherLoop_eq (env : Env) (rc : RemoteClient) (cl : Client)
    (keep : Option (Key → Bool)) (hcl : rc.client = some cl) :
    ∀ (keys : List Key) (w : World) (configs : List Config),
      allOtherLoop env rc keep keys w configs =
        (.ret (configs ++ expectedBatch env cl keep keys w),
         (fetchAll cl (keys.filter (fun k => !filteredOut keep k)) w).2) := by
  intro keys
  induction keys with
  | nil => intro w configs; simp [allOtherLoop, expectedBatch, fetchAll]
  | cons key rest ih =>
    intro w configs
    unfold allOtherLoop
    by_cases hf : filteredOut keep key = true
    · simp [hf, ih, expectedBatch]
    · have hf2 : filteredOut keep key = false := by simpa using hf
      simp only [hf2, kvGet, hcl, Bool.false_eq_true, if_false]
      cases hget : cl.get w key with
      | error e =>
        simp [ih, expectedBatch, hf2, fetchAll, hget, decodeFetched]
      | ok ov =>
        cases ov with
        | none => simp [ih, expectedBatch, hf2, fetchAll, hget, decodeFetched]
        | some v =>
          cases hdec : env.unmarshal v with
          | error e =>
            simp [ih, expectedBatch, hf2, fetchAll, hget, decodeFetched, hdec,
              Except.toOption]
          | ok cfg =>
            simp [ih, expectedBatch, hf2, fetchAll, hget, decodeFetched, hdec,
              Except.toOption]

/-- Fetching leaves the contents alone and logs only `get` calls. -/
lemma fetchAll_world (cl : Client) :
    ∀ (keys : List Key) (w : World),
      (fetchAll cl keys w).2 = ⟨w.data, w.calls ++ keys.map KVCall.get⟩ := by
  intro keys
  induction keys with
  | nil => intro w; simp [fetchAll]
  | cons key rest ih => intro w; simp [fetchAll, ih, World.record]

/-! ## Store without an active client -/

/-- C1: in every store state with no active client (`r.kv` is nil), each of
List, Get, Put, Delete and All returns ErrNotConnected and leaves the world,
call log included, as it was: no call reaches a KV client.  A store created
with `enable = false` and a store that is not closed after ApplyConfig with
`enable = false` are in such a state. -/
theorem not_connected_when_disabled (env : Env) (r : Remote) (w : World) (key : Key)
    (c : Config) (keep : Option (Key → Bool)) (cfg : KVConfig) (h : r.kv = none) :
    Remote.List r w = ⟨.ret (.error .notConnected), w⟩ ∧
    Get env r w key = ⟨.ret (.error .notConnected), w⟩ ∧
    Put env r w c = ⟨.ret (false, some .notConnected), w⟩ ∧
    Delete r w key = ⟨.ret (some .notConnected), w⟩ ∧
    All env r w keep = ⟨.ret (.error .notConnected), w⟩ ∧
    (ApplyConfig env { r with cancelled := false } cfg false).2.kv = none ∧
    NewRemote env cfg false
        = .ok { kv := none, reg := [], reloadSent := 1, cancelled := false } := by
  simp [Remote.List, Get, Put, Delete, All, all, h, ApplyConfig, setClient, NewRemote,
    unregisterAll]

/-- Witness for C1: the in-memory store after `ApplyConfig` with
`enable = false`. -/
theorem not_connected_when_disabled_witness :
    (ApplyConfig toyEnv memStore ⟨"inmemory", "", ""⟩ false).2.kv = none ∧
    (Remote.List (ApplyConfig toyEnv memStore ⟨"inmemory", "", ""⟩ false).2
        ⟨[("a", "a:x")], []⟩ = ⟨.ret (.error .notConnected), ⟨[("a", "a:x")], []⟩⟩ ∧
     Get toyEnv (ApplyConfig toyEnv memStore ⟨"inmemory", "", ""⟩ false).2
        ⟨[("a", "a:x")], []⟩ "a" = ⟨.ret (.error .notConnected), ⟨[("a", "a:x")], []⟩⟩ ∧
     Put toyEnv (ApplyConfig toyEnv memStore ⟨"inmemory", "", ""⟩ false).2
        ⟨[("a", "a:x")], []⟩ ⟨"a", "x"⟩ =
          ⟨.ret (false, some .notConnected), ⟨[("a", "a:x")], []⟩⟩ ∧
     Delete (ApplyConfig toyEnv memStore ⟨"inmemory", "", ""⟩ false).2
        ⟨[("a", "a:x")], []⟩ "a" = ⟨.ret (some .notConnected), ⟨[("a", "a:x")], []⟩⟩ ∧
     All toyEnv (ApplyConfig toyEnv memStore ⟨"inmemory", "", ""⟩ false).2
        ⟨[("a", "a:x")], []⟩ none = ⟨.ret (.error .notConnected), ⟨[("a", "a:x")], []⟩⟩ ∧
     (ApplyConfig toyEnv
        { (ApplyConfig toyEnv memStore ⟨"inmemory", "", ""⟩ false).2 with cancelled := false }
        ⟨"inmemory", "", ""⟩ false).2.kv = none ∧
     NewRemote toyEnv ⟨"inmemory", "", ""⟩ false
        = .ok { kv := none, reg := [], reloadSent := 1, cancelled := false }) :=
  ⟨rfl, not_connected_when_disabled toyEnv _ _ "a" ⟨"a", "x"⟩ none ⟨"inmemory", "", ""⟩ rfl⟩

/-! ## Absent keys -/

/-- C4: on a connected store, when the client reports no value (and no
error) for a key, Get and Delete both return NotExistError carrying that key;
Delete has then issued the existence probe only, so no delete reached the
client and the contents are untouched. -/
theorem absent_key_not_exist (env : Env) (r : Remote) (rc : RemoteClient) (cl : Client)
    (w : World) (key : Key) (hkv : r.kv = some rc) (hcl : rc.client = some cl)
    (habs : cl.get w key = .ok none) :
    (Get env r w key).out = .ret (.error (.notExist key)) ∧
    (Delete r w key).out = .ret (some (.notExist key)) ∧
    (Delete r w key).world.calls = w.calls ++ [.get key] ∧
    KVCall.delete key ∉ (Delete r w key).world.calls.drop w.calls.length ∧
    (Delete r w key).world.data = w.data := by
  simp [Get, Delete, kvGet, hkv, hcl, habs, World.record]

/-- Witness for C4: key `b` on an in-memory store that holds only `a`. -/
theorem absent_key_not_exist_witness :
    (Get toyEnv memStore ⟨[("a", "a:x")], []⟩ "b").out = .ret (.error (.notExist "b")) ∧
    (Delete memStore ⟨[("a", "a:x")], []⟩ "b").out = .ret (some (.notExist "b")) ∧
    (Delete memStore ⟨[("a", "a:x")], []⟩ "b").world.calls = [] ++ [.get "b"] ∧
    KVCall.delete "b" ∉ (Delete memStore ⟨[("a", "a:x")], []⟩ "b").world.calls.drop 0 ∧
    (Delete memStore ⟨[("a", "a:x")], []⟩ "b").world.data = [("a", "a:x")] :=
  absent_key_not_exist toyEnv memStore _ memClient ⟨[("a", "a:x")], []⟩ "b" rfl rfl rfl

/-! ## Put -/

/-- C2: on the generic path Put never reports a successful write.  For a
connected store without a consul handle whose client lists `keys`, and a
config that marshals, Put ends in a run-time failure when `keys` is empty and
blocks otherwise, and no compare-and-swap is issued; in particular it never
returns `created = true` on a store that holds nothing under the name. -/
theorem put_generic_never_returns (env : Env) (r : Remote) (rc : RemoteClient) (cl : Client)
    (w : World) (c : Config) (keys : List Key) (bb : Value)
    (hkv : r.kv = some rc) (hgen : rc.consul = none) (hcl : rc.client = some cl)
    (hlist : cl.list w "" = .ok keys) (hm : env.marshal c = .ok bb) :
    (Put env r w c).out = (if keys.length = 0 then .panicked else .blocked) ∧
    (∀ res, (Put env r w c).out ≠ .ret res) ∧
    (Put env r w c).world.data = w.data ∧
    KVCall.cas c.Name ∉ (Put env r w c).world.calls.drop w.calls.length := by
  have hall : all env r w none =
      ⟨if keys.length = 0 then .panicked else .blocked,
       (fetchAll cl (keys.filter (fun k => !filteredOut none k)) (w.record (.list ""))).2⟩ := by
    simp only [all, hkv, hgen, allOther, kvList, hcl, hlist,
      allOtherLoop_eq env rc cl none hcl, sendOutcome_eq]
    by_cases h0 : keys.length = 0 <;> simp [h0]
  have hput : Put env r w c =
      ⟨if keys.length = 0 then .panicked else .blocked,
       (fetchAll cl (keys.filter (fun k => !filteredOut none k)) (w.record (.list ""))).2⟩ := by
    simp only [Put, hkv, hm, hall]
    by_cases h0 : keys.length = 0 <;> simp [h0]
  rw [hput]
  refine ⟨rfl, ?_, ?_, ?_⟩
  · intro res
    by_cases h0 : keys.length = 0 <;> simp [h0]
  · simp [fetchAll_world, World.record]
  · simp [fetchAll_world, World.record]

/-- Witness for C2: Put of `a` on the empty in-memory store. -/
theorem put_generic_never_returns_witness :
    (Put toyEnv memStore ⟨[], []⟩ ⟨"a", "x"⟩).out
        = (if ([] : List Key).length = 0 then .panicked else .blocked) ∧
    (∀ res, (Put toyEnv memStore ⟨[], []⟩ ⟨"a", "x"⟩).out ≠ .ret res) ∧
    (Put toyEnv memStore ⟨[], []⟩ ⟨"a", "x"⟩).world.data = [] ∧
    KVCall.cas "a" ∉ (Put toyEnv memStore ⟨[], []⟩ ⟨"a", "x"⟩).world.calls.drop 0 :=
  put_generic_never_returns toyEnv memStore _ memClient ⟨[], []⟩ ⟨"a", "x"⟩ [] "a:x"
    rfl rfl rfl rfl rfl

/-- Where the snapshot is delivered (a store with a consul handle), Put works
as described: on contents without the name it stores the marshalled config
and reports `created = true`, and the same Put again reports
`created = false` and leaves the marshalled config in place. -/
lemma put_with_snapshot_created_then_updated :
    (Put toyEnv consulStore ⟨[], []⟩ ⟨"a", "x"⟩).out = .ret (true, none) ∧
    lookupKey (Put toyEnv consulStore ⟨[], []⟩ ⟨"a", "x"⟩).world.data "a" = some "a:x" ∧
    (Put toyEnv consulStore (Put toyEnv consulStore ⟨[], []⟩ ⟨"a", "x"⟩).world ⟨"a", "x"⟩).out
        = .ret (false, none) ∧
    lookupKey (Put toyEnv consulStore (Put toyEnv consulStore ⟨[], []⟩ ⟨"a", "x"⟩).world
        ⟨"a", "x"⟩).world.data "a" = some "a:x" := by
  decide

/-- C3: on a connected store, when the config marshals, the bulk read hands
back the snapshot and the uniqueness check of the config against that
snapshot fails, Put returns `(false, error)` wrapping the check's error, the
contents are what they were before the call, and the calls it issued include
no compare-and-swap and no other write. -/
theorem put_rejected_without_write (env : Env) (r : Remote) (rc : RemoteClient) (w : World)
    (c : Config) (bb : Value) (snap : List (List Config)) (e : Error)
    (hkv : r.kv = some rc) (hm : env.marshal c = .ok bb)
    (hall : (all env r w none).out = .ret (.ok snap))
    (huniq : env.checkUnique snap c = some e) :
    (Put env r w c).out
        = .ret (false, some (.wrap "failed to check uniqueness of config" e)) ∧
    (Put env r w c).world.data = w.data ∧
    (∀ k ∈ (Put env r w c).world.calls.drop w.calls.length, KVCall.isWrite k = false) := by
  have hput : Put env r w c =
      ⟨.ret (false, some (.wrap "failed to check uniqueness of config" e)),
       (all env r w none).world⟩ := by
    simp [Put, hkv, hm, hall, huniq]
  rw [hput]
  cases hc : rc.consul with
  | some h => simp [all, hkv, hc, World.record, KVCall.isWrite]
  | none =>
    have : (allOther env r w none).out = .ret (.ok snap) := by
      simpa [all, hkv, hc] using hall
    exact absurd this (allOther_ne_ok env r w none snap)

/-- Witness for C3: a store with a consul handle that holds `b` with body
`x`; writing `a` with the same body is rejected. -/
theorem put_rejected_without_write_witness :
    (Put toyEnv consulStore ⟨[("b", "b:x")], []⟩ ⟨"a", "x"⟩).out
        = .ret (false, some (.wrap "failed to check uniqueness of config"
            (.other "found multiple scrape configs with the same job name"))) ∧
    (Put toyEnv consulStore ⟨[("b", "b:x")], []⟩ ⟨"a", "x"⟩).world.data = [("b", "b:x")] ∧
    (∀ k ∈ (Put toyEnv consulStore ⟨[("b", "b:x")], []⟩ ⟨"a", "x"⟩).world.calls.drop 0,
      KVCall.isWrite k = false) :=
  put_rejected_without_write toyEnv consulStore _ ⟨[("b", "b:x")], []⟩ ⟨"a", "x"⟩ "a:x"
    [[⟨"b", "x"⟩]] (.other "found multiple scrape configs with the same job name")
    rfl rfl rfl rfl

/-! ## Reload signals -/

/-- C5, as stated, fails: ApplyConfig on a store that is already closed
returns the error `remote store already stopped` and performs no send on the
reload channel. -/
theorem applyConfig_closed_store_sends_nothing :
    (ApplyConfig toyEnv closedStore ⟨"inmemory", "", ""⟩ true).1
        = some (.other "remote store already stopped") ∧
    (ApplyConfig toyEnv closedStore ⟨"inmemory", "", ""⟩ true).2.reloadSent
        = closedStore.reloadSent ∧
    (ApplyConfig toyEnv closedStore ⟨"inmemory", "", ""⟩ true).2.reloadSent
        ≠ closedStore.reloadSent + 1 := by
  decide

/-- C5, amended: a call to ApplyConfig that returns nil performs exactly one
send on the reload channel, and a call that returns an error performs none.
A closed store always gives the error `remote store already stopped`, and on
a store that is not closed a call with `enable = false` always returns nil. -/
theorem applyConfig_reload_signal (env : Env) (r : Remote) (cfg : KVConfig) (enable : Bool) :
    (ApplyConfig env r cfg enable).2.reloadSent
        = (if (ApplyConfig env r cfg enable).1.isSome then r.reloadSent
           else r.reloadSent + 1) ∧
    (ApplyConfig env { r with cancelled := true } cfg enable).1
        = some (.other "remote store already stopped") ∧
    (ApplyConfig env { r with cancelled := false } cfg false).1 = none := by
  refine ⟨?_, ?_, ?_⟩
  · unfold ApplyConfig
    by_cases hc : r.cancelled = true
    · simp [hc]
    · cases enable with
      | false => simp [hc, setClient, unregisterAll]
      | true =>
        by_cases hs : cfg.Store = "consul"
        · cases hq : env.newConsul cfg <;>
            simp [hc, hs, hq, goPair, setClient, unregisterAll]
        · cases hp : env.newClient cfg <;>
            simp [hc, hs, hp, goPair, setClient, unregisterAll]
  · simp [ApplyConfig]
  · simp [ApplyConfig]

/-! ## Client construction failures -/

/-- For a backend other than consul, a failure to build the generic client
makes ApplyConfig return that error wrapped, after the collectors of the
previous client were unregistered; the active client and the count of reload
signals stay as they were. -/
lemma applyConfig_generic_client_error (env : Env) (r : Remote) (cfg : KVConfig) (e : Error)
    (hopen : r.cancelled = false) (hstore : cfg.Store ≠ "consul")
    (hcli : env.newClient cfg = .error e) :
    ApplyConfig env r cfg true
      = (some (.wrap "failed to create kv client" e), { r with reg := env.registers cfg }) := by
  simp [ApplyConfig, hopen, hstore, hcli, goPair, unregisterAll]

/-- For the consul backend, a failure to build the consul handle makes
ApplyConfig return that error, after the collectors of the previous client
were unregistered; the active client and the count of reload signals stay as
they were. -/
lemma applyConfig_consul_handle_error (env : Env) (r : Remote) (cfg : KVConfig) (e : Error)
    (hopen : r.cancelled = false) (hstore : cfg.Store = "consul")
    (hcons : env.newConsul cfg = .error e) :
    ApplyConfig env r cfg true = (some e, { r with reg := env.registers cfg }) := by
  simp [ApplyConfig, hopen, hstore, hcons, goPair, unregisterAll]

/-- C11: for every kv config on a store that is not closed, when ApplyConfig
is called with `enable = true` and building the generic client fails (for the
consul backend the consul handle, which the generic consul client builds from
the same address, token and scheme, then fails to build as well), ApplyConfig
returns an error, the store keeps its active client, and no reload signal is
sent.  The error is the wrapped error of the generic constructor for a
backend other than consul and the error of the consul constructor for
consul. -/
theorem applyConfig_client_failure_keeps_client (env : Env) (r : Remote) (cfg : KVConfig)
    (e : Error) (hopen : r.cancelled = false) (hcli : env.newClient cfg = .error e)
    (htied : cfg.Store = "consul" → ∃ e2, env.newConsul cfg = .error e2) :
    (ApplyConfig env r cfg true).1.isSome = true ∧
    (ApplyConfig env r cfg true).1
        = (if cfg.Store = "consul" then (goPair (env.newConsul cfg)).2
           else some (.wrap "failed to create kv client" e)) ∧
    (ApplyConfig env r cfg true).2.kv = r.kv ∧
    (ApplyConfig env r cfg true).2.reloadSent = r.reloadSent := by
  by_cases hs : cfg.Store = "consul"
  · obtain ⟨e2, hcons⟩ := htied hs
    rw [applyConfig_consul_handle_error env r cfg e2 hopen hs hcons]
    simp [hs, hcons, goPair]
  · rw [applyConfig_generic_client_error env r cfg e hopen hs hcli]
    simp [hs]

/-- Witness for C11: the in-memory store asked to switch to consul, and to
another in-memory config, when no client can be built; it stays connected to
its working client. -/
theorem applyConfig_client_failure_keeps_client_witness :
    ((ApplyConfig noClientEnv memStore ⟨"consul", "localhost:8500", ""⟩ true).1.isSome = true ∧
     (ApplyConfig noClientEnv memStore ⟨"consul", "localhost:8500", ""⟩ true).1
        = (if (⟨"consul", "localhost:8500", ""⟩ : KVConfig).Store = "consul"
           then (goPair (noClientEnv.newConsul ⟨"consul", "localhost:8500", ""⟩)).2
           else some (.wrap "failed to create kv client" (.other "cannot build kv client"))) ∧
     (ApplyConfig noClientEnv memStore ⟨"consul", "localhost:8500", ""⟩ true).2.kv
        = memStore.kv ∧
     (ApplyConfig noClientEnv memStore ⟨"consul", "localhost:8500", ""⟩ true).2.reloadSent
        = memStore.reloadSent) ∧
    ((ApplyConfig noClientEnv memStore ⟨"inmemory", "", ""⟩ true).1.isSome = true ∧
     (ApplyConfig noClientEnv memStore ⟨"inmemory", "", ""⟩ true).1
        = (if (⟨"inmemory", "", ""⟩ : KVConfig).Store = "consul"
           then (goPair (noClientEnv.newConsul ⟨"inmemory", "", ""⟩)).2
           else some (.wrap "failed to create kv client" (.other "cannot build kv client"))) ∧
     (ApplyConfig noClientEnv memStore ⟨"inmemory", "", ""⟩ true).2.kv = memStore.kv ∧
     (ApplyConfig noClientEnv memStore ⟨"inmemory", "", ""⟩ true).2.reloadSent
        = memStore.reloadSent) ∧
    (ApplyConfig noClientEnv memStore ⟨"consul", "localhost:8500", ""⟩ true).1
        = some (.other "cannot build consul client") ∧
    (Get noClientEnv (ApplyConfig noClientEnv memStore ⟨"consul", "localhost:8500", ""⟩ true).2
        ⟨[("a", "a:x")], []⟩ "a").out = .ret (.ok ⟨"a", "x"⟩) :=
  ⟨applyConfig_client_failure_keeps_client noClientEnv memStore
      ⟨"consul", "localhost:8500", ""⟩ (.other "cannot build kv client") rfl rfl
      (fun _ => ⟨_, rfl⟩),
   applyConfig_client_failure_keeps_client noClientEnv memStore
      ⟨"inmemory", "", ""⟩ (.other "cannot build kv client") rfl rfl
      (fun h => absurd h (by decide)),
   by decide, by decide⟩

/-! ## The generic bulk read -/

/-- C6: on the generic path with a connected client, the loop of All runs
over every listed key, issuing fetches only, and builds exactly the batch as
described (decoded fetches of the kept keys, in list order) whatever the
fetches answer; All returns the wrapped error when the listing fails; but
when the listing succeeds All neither returns that batch nor an error: it
ends in a run-time failure for an empty listing and blocks otherwise. -/
theorem all_generic_batch_built_not_returned (env : Env) (r : Remote) (rc : RemoteClient)
    (cl : Client) (w : World) (keep : Option (Key → Bool)) (keys : List Key)
    (hkv : r.kv = some rc) (hgen : rc.consul = none) (hcl : rc.client = some cl) :
    allOtherLoop env rc keep keys (w.record (.list "")) []
        = (.ret (expectedBatch env cl keep keys (w.record (.list ""))),
           ⟨w.data, w.calls ++ [.list ""] ++
              (keys.filter (fun k => !filteredOut keep k)).map KVCall.get⟩) ∧
    (All env r w keep).out =
      (match cl.list w "" with
       | .error e => .ret (.error (.wrap "failed to list configs" e))
       | .ok ks => if ks.length = 0 then .panicked else .blocked) ∧
    (∀ d, (All env r w keep).out ≠ .ret (.ok d)) := by
  refine ⟨?_, ?_, ?_⟩
  · simp [allOtherLoop_eq env rc cl keep hcl, fetchAll_world, World.record]
  · cases hlist : cl.list w "" with
    | error e => simp [All, all, hkv, hgen, allOther, kvList, hcl, hlist]
    | ok ks =>
      simp only [All, all, hkv, hgen, allOther, kvList, hcl, hlist,
        allOtherLoop_eq env rc cl keep hcl, sendOutcome_eq]
      by_cases h0 : ks.length = 0 <;> simp [h0]
  · intro d
    simpa [All, all, hkv, hgen] using allOther_ne_ok env r w keep d

/-- Witness for C6: an in-memory store holding `a`, a document that does not
decode, and `b`. -/
theorem all_generic_batch_built_not_returned_witness :
    allOtherLoop toyEnv ⟨some memClient, none, ⟨"inmemory", "", ""⟩⟩ none ["a", "bad", "b"]
        (World.record ⟨[("a", "a:1"), ("bad", "nocolon"), ("b", "b:2")], []⟩ (.list "")) []
        = (.ret (expectedBatch toyEnv memClient none ["a", "bad", "b"]
            (World.record ⟨[("a", "a:1"), ("bad", "nocolon"), ("b", "b:2")], []⟩ (.list ""))),
           ⟨[("a", "a:1"), ("bad", "nocolon"), ("b", "b:2")], [] ++ [.list ""] ++
              (["a", "bad", "b"].filter (fun k => !filteredOut none k)).map KVCall.get⟩) ∧
    (All toyEnv memStore ⟨[("a", "a:1"), ("bad", "nocolon"), ("b", "b:2")], []⟩ none).out =
      (match memClient.list ⟨[("a", "a:1"), ("bad", "nocolon"), ("b", "b:2")], []⟩ "" with
       | .error e => .ret (.error (.wrap "failed to list configs" e))
       | .ok ks => if ks.length = 0 then .panicked else .blocked) ∧
    (∀ d, (All toyEnv memStore ⟨[("a", "a:1"), ("bad", "nocolon"), ("b", "b:2")], []⟩
        none).out ≠ .ret (.ok d)) :=
  all_generic_batch_built_not_returned toyEnv memStore _ memClient
    ⟨[("a", "a:1"), ("bad", "nocolon"), ("b", "b:2")], []⟩ none ["a", "bad", "b"]
    rfl rfl rfl

/-- C7: the channel of the generic path is never handed to the caller.  Under
every schedule of the goroutines that hold the channel, started where the
caller reaches the send with any wait-group count and any batch, the caller
does not reach its return and no batch is delivered; with a count above zero
nothing moves at all, the caller staying in its send; accordingly `allOther`
never yields a channel. -/
theorem allOther_channel_never_returned (nkeys : Nat) (batch : List Config)
    (sched : List Gor) (env : Env) (r : Remote) (w : World) (keep : Option (Key → Bool))
    (d : List (List Config)) :
    ((ChanSys.init nkeys batch).run sched).callerPc ≠ .returned ∧
    ((ChanSys.init nkeys batch).run sched).delivered = [] ∧
    (ChanSys.init (nkeys + 1) batch).run sched = ChanSys.init (nkeys + 1) batch ∧
    sendOutcome nkeys batch = (if nkeys = 0 then .panicked else .blocked) ∧
    (allOther env r w keep).out ≠ .ret (.ok d) := by
  obtain ⟨h1, _, h3⟩ := ChanSys.run_keeps_caller_waiting sched
    (ChanSys.init nkeys batch) (by simp [ChanSys.init]) rfl
  exact ⟨h1, h3,
    ChanSys.run_stuck_of_pos sched (ChanSys.init (nkeys + 1) batch) (by simp [ChanSys.init])
      rfl rfl rfl,
    sendOutcome_eq nkeys batch, allOther_ne_ok env r w keep d⟩

/-! ## The generic watch callback -/

/-- C8, as stated, fails: with the context not cancelled and nobody receiving
from the bundle channel, a change with a nil value leaves the callback
blocked in its send; it hands over no bundle and does not return true. -/
theorem watch_callback_blocks_without_consumer :
    watchPrefixCallback toyEnv false false [] "a" none = (.blocked, []) ∧
    watchPrefixCallback toyEnv false false [] "a" none
        ≠ (.ret true, [⟨[⟨"a", none⟩]⟩]) := by
  decide

/-- C8, amended: for a change `(key, v)` delivered while the context is not
cancelled and a consumer receives from the bundle channel, a nil value hands
over exactly one bundle holding the single event with no config, a value that
decodes to `cfg` hands over exactly one bundle holding the single event with
`cfg`, and the callback returns true.  A value that does not decode hands
over nothing and returns true, with or without a consumer.  Without a
consumer the other two cases stay blocked in the send.  The callback returns
false exactly when the context is already cancelled, and then hands over
nothing. -/
theorem watch_callback_behaviour (env : Env) (ctxErr consumer : Bool)
    (sent : List WatchBundle) (key : Key) (v : Option Value) (raw : Value) :
    watchPrefixCallback env false true sent key none
        = (.ret true, sent ++ [⟨[⟨key, none⟩]⟩]) ∧
    watchPrefixCallback env false true sent key (some raw)
        = (match env.unmarshal raw with
           | .ok cfg => (.ret true, sent ++ [⟨[⟨key, some cfg⟩]⟩])
           | .error _ => (.ret true, sent)) ∧
    watchPrefixCallback env false false sent key none = (.blocked, sent) ∧
    watchPrefixCallback env false false sent key (some raw)
        = (match env.unmarshal raw with
           | .ok _ => (.blocked, sent)
           | .error _ => (.ret true, sent)) ∧
    watchPrefixCallback env true consumer sent key v = (.ret false, sent) ∧
    ((watchPrefixCallback env ctxErr consumer sent key v).1 = .ret false ↔ ctxErr = true) := by
  refine ⟨?_, ?_, ?_, ?_, ?_, ?_⟩
  · simp [watchPrefixCallback, sendBundle]
  · cases h : env.unmarshal raw <;> simp [watchPrefixCallback, sendBundle, h]
  · simp [watchPrefixCallback, sendBundle]
  · cases h : env.unmarshal raw <;> simp [watchPrefixCallback, sendBundle, h]
  · simp [watchPrefixCallback]
  · cases ctxErr with
    | true => simp [watchPrefixCallback]
    | false =>
      cases v with
      | none => cases consumer <;> simp [watchPrefixCallback, sendBundle]
      | some x =>
        cases h : env.unmarshal x <;> cases consumer <;>
          simp [watchPrefixCallback, sendBundle, h]

end Configstore

namespace Integrations

/-! ## Targets -/

/-- The filter of `Targets` lets a name through exactly when no names are
given or the name is among them. -/
lemma passesFilter_iff (opts : TargetOptions) (name : String) :
    passesFilter opts name = true ↔ (opts.Integrations = [] ∨ name ∈ opts.Integrations) := by
  simp [passesFilter, List.isEmpty_iff]

/-- Starting the identified configs succeeds when every factory does, and
the instances then contribute to `Targets` what the configs describe. -/
lemma startAll_targets (g : Globals) (pfx : String) (opts : TargetOptions) :
    ∀ (cfgs : List Config) (ics : List (Identity × Config)),
      identifyAll g cfgs = .ok ics →
      (∀ cfg ∈ cfgs, ∃ integ, cfg.NewIntegration g = .ok integ) →
      ∃ insts, startAll g ics = .ok insts ∧
        (Controller.Targets ⟨insts, insts.map (fun i => .start i.id), []⟩ pfx opts
          = cfgs.flatMap (contribution g pfx opts)) := by
  intro cfgs
  induction cfgs with
  | nil =>
    intro ics hid _
    simp [identifyAll] at hid
    subst hid
    exact ⟨[], rfl, rfl⟩
  | cons c rest ih =>
    intro ics hid hfac
    simp only [identifyAll] at hid
    cases hi : c.Identifier g with
    | error e => simp [hi] at hid
    | ok i =>
      cases hrest : identifyAll g rest with
      | error e => simp [hi, hrest] at hid
      | ok ics2 =>
        simp [hi, hrest] at hid
        subst hid
        obtain ⟨integ, hinteg⟩ := hfac c (by simp)
        obtain ⟨insts, hstart, htg⟩ := ih ics2 hrest (fun cfg hc => hfac cfg (by simp [hc]))
        refine ⟨⟨(c.Name, i), c, integ⟩ :: insts, ?_, ?_⟩
        · simp [startAll, hinteg, hstart]
        · simp only [Controller.Targets] at htg
          simp only [Controller.Targets, List.flatMap_cons, htg, contribution, hinteg]
          by_cases hp : passesFilter opts c.Name = true
          · have := (passesFilter_iff opts c.Name).1 hp
            simp [hp, this]
          · have hn : ¬ (opts.Integrations = [] ∨ c.Name ∈ opts.Integrations) :=
              fun h => hp ((passesFilter_iff opts c.Name).2 h)
            simp [hp, hn]

/-- C9: for every list of desired configs whose identities compute and are
pairwise distinct and whose factories succeed, the controller is built and
its `Targets(prefix, options)` is the concatenation, in the order the configs
were supplied, of the `Targets(prefix)` of each instance that has the Metrics
capability and is let through by the filter: every instance when the filter
is empty, only those whose config name is listed otherwise. -/
theorem targets_concatenate_in_supplied_order (cfgs : List Config) (g : Globals)
    (ics : List (Identity × Config))
    (hid : identifyAll g cfgs = .ok ics)
    (hdistinct : distinct (ics.map (fun ic => ic.1)) = true)
    (hfac : ∀ cfg ∈ cfgs, ∃ integ, cfg.NewIntegration g = .ok integ) :
    ∃ ctrl, newController cfgs g = .ok ctrl ∧
      ∀ (pfx : String) (opts : TargetOptions),
        ctrl.Targets pfx opts = cfgs.flatMap (contribution g pfx opts) := by
  obtain ⟨insts, hstart, _⟩ := startAll_targets g "" ⟨[]⟩ cfgs ics hid hfac
  refine ⟨⟨insts, insts.map (fun i => .start i.id), []⟩, ?_, ?_⟩
  · simp [newController, hid, hdistinct, hstart]
  · intro pfx opts
    obtain ⟨insts2, hstart2, htg⟩ := startAll_targets g pfx opts cfgs ics hid hfac
    rw [hstart] at hstart2
    cases hstart2
    exact htg

/-- Witness for C9: the configs `a` and `b` of the test, each exposing one
target group; no filter and the filter `[a, b]` give both groups in order,
the filter `[a]` gives the group of `a`. -/
theorem targets_concatenate_in_supplied_order_witness :
    (∃ ctrl, newController targetsTestConfigs "" = .ok ctrl ∧
      ∀ (pfx : String) (opts : TargetOptions),
        ctrl.Targets pfx opts = targetsTestConfigs.flatMap (contribution "" pfx opts)) ∧
    targetsTestConfigs.flatMap (contribution "" "/" ⟨[]⟩) = [⟨["a"]⟩, ⟨["b"]⟩] ∧
    targetsTestConfigs.flatMap (contribution "" "/" ⟨["a", "b"]⟩) = [⟨["a"]⟩, ⟨["b"]⟩] ∧
    targetsTestConfigs.flatMap (contribution "" "/" ⟨["a"]⟩) = [⟨["a"]⟩] :=
  ⟨targets_concatenate_in_supplied_order targetsTestConfigs ""
      [(("a", "instanceA"), mockConfigNameTuple "a" "instanceA" (integrationWithTarget "a")),
       (("b", "instanceB"), mockConfigNameTuple "b" "instanceB" (integrationWithTarget "b"))]
      rfl rfl
      (by
        intro cfg h
        simp only [targetsTestConfigs, List.mem_cons, List.mem_singleton, List.not_mem_nil,
          or_false] at h
        rcases h with rfl | rfl
        · exact ⟨_, rfl⟩
        · exact ⟨_, rfl⟩),
   by decide, by decide, by decide⟩

/-! ## Live update -/

/-- Splitting a list by a test does not change how often an event occurs in
what its elements produce. -/
lemma count_flatMap_filter {α : Type} (p : α → Bool) (f : α → List Event) (e : Event) :
    ∀ l : List α,
      List.count e ((l.filter p).flatMap f) + List.count e ((l.filter (fun a => !p a)).flatMap f)
        = List.count e (l.flatMap f) := by
  intro l
  induction l with
  | nil => simp
  | cons a rest ih =>
    cases hp : p a
    · simp [List.filter_cons, hp, List.count_append, ← ih]; omega
    · simp [List.filter_cons, hp, List.count_append, ← ih]; omega

/-- An identity outside a list of distinct identities: `distinct` in terms of
membership. -/
lemma distinct_cons (x : Identity) (rest : List Identity) :
    distinct (x :: rest) = true ↔ x ∉ rest ∧ distinct rest = true := by
  simp [distinct]

/-- With distinct keys, an event that only the element `x` can produce
occurs in the whole as often as in what `x` produces. -/
lemma count_flatMap_unique {α : Type} (key : α → Identity) (f : α → List Event) (e : Event)
    (x : α) (hf : ∀ y, key y ≠ key x → e ∉ f y) :
    ∀ l : List α, x ∈ l → distinct (l.map key) = true →
      List.count e (l.flatMap f) = List.count e (f x) := by
  have hzero : ∀ l : List α, key x ∉ l.map key → List.count e (l.flatMap f) = 0 := by
    intro l
    induction l with
    | nil => simp
    | cons a rest ih =>
      intro hk
      simp only [List.map_cons, List.mem_cons, not_or] at hk
      have ha : e ∉ f a := hf a (fun h => hk.1 h.symm)
      simp [List.count_append, List.count_eq_zero_of_not_mem ha, ih hk.2]
  intro l
  induction l with
  | nil => intro hx; cases hx
  | cons a rest ih =>
    intro hx hd
    simp only [List.map_cons] at hd
    obtain ⟨hnot, hdrest⟩ := (distinct_cons _ _).1 hd
    rcases List.mem_cons.1 hx with rfl | hmem
    · simp [List.count_append, hzero rest hnot]
    · have hne : key a ≠ key x := by
        intro h
        exact hnot (h ▸ List.mem_map_of_mem key hmem)
      simp [List.count_append, List.count_eq_zero_of_not_mem (hf a hne), ih hmem hdrest]

/-- The events of the decision for one config speak of its identity only. -/
lemma reconcileOne_events (g : Globals) (old : List Instance) (ic : Identity × Config)
    (e : Event) (he : e ∈ (reconcileOne g old ic).2.1) :
    e = .start ic.1 ∨ e = .cancel ic.1 ∨ e = .apply ic.1 := by
  unfold reconcileOne at he
  cases hfind : findInstance old ic.1 with
  | none =>
    simp only [hfind, startFresh] at he
    cases hnew : ic.2.NewIntegration g <;> simp [hnew] at he
    exact Or.inl he
  | some inst =>
    simp only [hfind] at he
    by_cases heq : inst.cfg.ConfigEquals ic.2.settings = true
    · simp [heq] at he
    · simp only [heq, Bool.false_eq_true, if_false] at he
      cases hupd : inst.integ.update with
      | none =>
        simp only [hupd, startFresh] at he
        cases hnew : ic.2.NewIntegration g <;> simp [hnew] at he
        · exact Or.inr (Or.inl he)
        · rcases he with h | h
          · exact Or.inr (Or.inl h)
          · exact Or.inl h
      | some ac =>
        simp only [hupd] at he
        cases hres : ac ic.2.settings g with
        | none =>
          simp [hres] at he
          exact Or.inr (Or.inr he)
        | some err =>
          cases err <;> simp [hres] at he <;> rcases he with h | h
          · exact Or.inr (Or.inr h)
          · exact Or.inr (Or.inl h)
          · exact Or.inr (Or.inr h)
          · exact Or.inr (Or.inl h)

/-- Among instances with distinct identities, looking an instance up by its
identity finds it. -/
lemma findInstance_of_mem (inst : Instance) :
    ∀ old : List Instance, inst ∈ old → distinct (old.map (fun i => i.id)) = true →
      findInstance old inst.id = some inst := by
  intro old
  induction old with
  | nil => intro h; cases h
  | cons a rest ih =>
    intro hmem hd
    simp only [List.map_cons] at hd
    obtain ⟨hnot, hdrest⟩ := (distinct_cons _ _).1 hd
    rcases List.mem_cons.1 hmem with rfl | hrest
    · simp [findInstance]
    · have hne : a.id ≠ inst.id := by
        intro h
        exact hnot (h ▸ List.mem_map_of_mem (fun i => i.id) hrest)
      have := ih hrest hdrest
      simp only [findInstance] at this
      simp [findInstance, List.find?_cons, hne, this]

/-- Producing from mapped elements is producing from the elements. -/
lemma flatMap_map_events {α β : Type} (h : α → β) (f : β → List Event) :
    ∀ l : List α, (l.map h).flatMap f = l.flatMap (fun a => f (h a)) := by
  intro l
  induction l with
  | nil => rfl
  | cons a rest ih => simp [ih]

/-- The decision for the config of a running, updatable instance whose
config changed and whose `ApplyConfig` succeeds. -/
lemma reconcileOne_live_update (g : Globals) (old : List Instance) (inst : Instance)
    (cfg : Config) (applyConfig : Settings → Globals → Option ApplyError)
    (hfind : findInstance old inst.id = some inst)
    (hupd : inst.integ.update = some applyConfig)
    (hchg : inst.cfg.ConfigEquals cfg.settings = false)
    (hok : applyConfig cfg.settings g = none) :
    reconcileOne g old (inst.id, cfg) = (some { inst with cfg := cfg }, [.apply inst.id], []) := by
  simp [reconcileOne, hfind, hupd, hchg, hok]

/-- C10: for every controller whose instances have distinct identities and
every running instance with the Update capability, when UpdateController is
called with desired configs of distinct identities among which one has the
identity of that instance, `ConfigEquals` reports a change and `ApplyConfig`
succeeds, the call succeeds, `ApplyConfig` is invoked exactly once for that
identity in the call, its run task is neither cancelled nor started in the
call (the number of its starts is what it was), and the instance stays in
place with the new config. -/
theorem live_update_applies_once_without_restart (ctrl : Controller) (cfgs : List Config)
    (g : Globals) (ics : List (Identity × Config)) (inst : Instance) (cfg : Config)
    (applyConfig : Settings → Globals → Option ApplyError)
    (hwf : distinct (ctrl.instances.map (fun i => i.id)) = true)
    (hinst : inst ∈ ctrl.instances)
    (hupd : inst.integ.update = some applyConfig)
    (hids : identifyAll g cfgs = .ok ics)
    (hdist : distinct (ics.map (fun ic => ic.1)) = true)
    (hcfg : (inst.id, cfg) ∈ ics)
    (hchg : inst.cfg.ConfigEquals cfg.settings = false)
    (hok : applyConfig cfg.settings g = none) :
    (UpdateController ctrl cfgs g).1 = none ∧
    occurrences (.apply inst.id)
      ((UpdateController ctrl cfgs g).2.events.drop ctrl.events.length) = 1 ∧
    occurrences (.cancel inst.id)
      ((UpdateController ctrl cfgs g).2.events.drop ctrl.events.length) = 0 ∧
    occurrences (.start inst.id)
      ((UpdateController ctrl cfgs g).2.events.drop ctrl.events.length) = 0 ∧
    occurrences (.start inst.id) (UpdateController ctrl cfgs g).2.events
      = occurrences (.start inst.id) ctrl.events ∧
    { inst with cfg := cfg } ∈ (UpdateController ctrl cfgs g).2.instances := by
  have hfind := findInstance_of_mem inst ctrl.instances hinst hwf
  have hone := reconcileOne_live_update g ctrl.instances inst cfg applyConfig hfind hupd hchg hok
  -- how often an event about this identity occurs in steps 2 and 4 together
  have hcount : ∀ e : Event, (e = .start inst.id ∨ e = .cancel inst.id ∨ e = .apply inst.id) →
      List.count e ((ics.filter
          (fun ic => (findInstance ctrl.instances ic.1).isSome)).flatMap
            (fun ic => (reconcileOne g ctrl.instances ic).2.1)) +
      List.count e ((ics.filter
          (fun ic => !(findInstance ctrl.instances ic.1).isSome)).flatMap
            (fun ic => (reconcileOne g ctrl.instances ic).2.1))
        = List.count e [Event.apply inst.id] := by
    intro e he
    rw [count_flatMap_filter]
    have := count_flatMap_unique (fun ic : Identity × Config => ic.1)
      (fun ic => (reconcileOne g ctrl.instances ic).2.1) e (inst.id, cfg)
      (by
        intro y hy hmem
        have := reconcileOne_events g ctrl.instances y e hmem
        rcases he with h | h | h <;> rcases this with k | k | k <;>
          simp_all)
      ics hcfg hdist
    rw [this]
    show List.count e (reconcileOne g ctrl.instances (inst.id, cfg)).2.1 = _
    rw [hone]
  -- step 3 cancels no instance whose identity is still desired
  have hstep3 : ∀ e : Event, (e = .start inst.id ∨ e = .cancel inst.id ∨ e = .apply inst.id) →
      List.count e ((ctrl.instances.filter
        (fun i => !(ics.map (fun ic => ic.1)).contains i.id)).map (fun i => Event.cancel i.id))
        = 0 := by
    intro e he
    apply List.count_eq_zero_of_not_mem
    intro hmem
    simp only [List.mem_map, List.mem_filter] at hmem
    obtain ⟨i, ⟨_, hnot⟩, hi⟩ := hmem
    have hin : inst.id ∈ ics.map (fun ic => ic.1) := List.mem_map_of_mem (fun ic => ic.1) hcfg
    rcases he with h | h | h
    · simp [h] at hi
    · rw [h] at hi
      have hid : i.id = inst.id := by injection hi
      rw [hid] at hnot
      simp [hin] at hnot
    · simp [h] at hi
  have hev : (UpdateController ctrl cfgs g).2.events.drop ctrl.events.length
      = (ics.filter (fun ic => (findInstance ctrl.instances ic.1).isSome)).flatMap
            (fun ic => (reconcileOne g ctrl.instances ic).2.1)
        ++ (ctrl.instances.filter
            (fun i => !(ics.map (fun ic => ic.1)).contains i.id)).map
              (fun i => Event.cancel i.id)
        ++ (ics.filter (fun ic => !(findInstance ctrl.instances ic.1).isSome)).flatMap
            (fun ic => (reconcileOne g ctrl.instances ic).2.1) := by
    simp [UpdateController, hids, hdist, flatMap_map_events, List.append_assoc]
  have hnew : ∀ e : Event, (e = .start inst.id ∨ e = .cancel inst.id ∨ e = .apply inst.id) →
      List.count e ((UpdateController ctrl cfgs g).2.events.drop ctrl.events.length)
        = List.count e [Event.apply inst.id] := by
    intro e he
    rw [hev, List.count_append, List.count_append, hstep3 e he, ← hcount e he]
    omega
  have hall : (UpdateController ctrl cfgs g).2.events
      = ctrl.events ++ (UpdateController ctrl cfgs g).2.events.drop ctrl.events.length := by
    simp [UpdateController, hids, hdist, List.append_assoc]
  refine ⟨?_, ?_, ?_, ?_, ?_, ?_⟩
  · simp [UpdateController, hids, hdist]
  · simp [occurrences, hnew (.apply inst.id) (Or.inr (Or.inr rfl))]
  · simp [occurrences, hnew (.cancel inst.id) (Or.inr (Or.inl rfl))]
  · simp [occurrences, hnew (.start inst.id) (Or.inl rfl)]
  · unfold occurrences
    rw [hall, List.count_append, hnew (.start inst.id) (Or.inl rfl)]
    simp
  · simp only [UpdateController, hids, hdist, if_true]
    simp only [List.mem_filterMap, List.mem_map]
    exact ⟨_, ⟨(inst.id, cfg), hcfg, rfl⟩, by rw [hone]⟩

/-- Witness for C10: the controller of the test, built from the single mock
config and updated with the same config; one apply, one start in all. -/
theorem live_update_applies_once_without_restart_witness :
    newController [mockUpdateConfig] "" = .ok updateTestController ∧
    ((UpdateController updateTestController [mockUpdateConfig] "").1 = none ∧
     occurrences (.apply ("mock", "mock"))
       ((UpdateController updateTestController [mockUpdateConfig] "").2.events.drop
         updateTestController.events.length) = 1 ∧
     occurrences (.cancel ("mock", "mock"))
       ((UpdateController updateTestController [mockUpdateConfig] "").2.events.drop
         updateTestController.events.length) = 0 ∧
     occurrences (.start ("mock", "mock"))
       ((UpdateController updateTestController [mockUpdateConfig] "").2.events.drop
         updateTestController.events.length) = 0 ∧
     occurrences (.start ("mock", "mock"))
       (UpdateController updateTestController [mockUpdateConfig] "").2.events
       = occurrences (.start ("mock", "mock")) updateTestController.events ∧
     (⟨("mock", "mock"), mockUpdateConfig, mockUpdateIntegration⟩ : Instance)
       ∈ (UpdateController updateTestController [mockUpdateConfig] "").2.instances) ∧
    occurrences (.start ("mock", "mock"))
      (UpdateController updateTestController [mockUpdateConfig] "").2.events = 1 :=
  ⟨rfl,
   live_update_applies_once_without_restart updateTestController [mockUpdateConfig] ""
     [(("mock", "mock"), mockUpdateConfig)]
     ⟨("mock", "mock"), mockUpdateConfig, mockUpdateIntegration⟩ mockUpdateConfig
     (fun _ _ => none) rfl (List.mem_singleton.2 rfl) rfl rfl rfl
     (List.mem_singleton.2 rfl) rfl rfl,
   by decide⟩

end Integrations
